import Mathlib

/-!
Verification of the block-synchronizer specification of this repository.

The repository ships the block synchronizer's test suite
(`src/node/src/components/block_synchronizer/tests.rs`) but not the
synchronizer implementation itself (`block_builder.rs`, `block_acquisition.rs`,
`peer_list.rs`, `signature_acquisition.rs` and the component module are absent
from `src/`).  The definitions below therefore embed the data model and the
operations of the Block Synchronization Engine as the specification describes
them (sections 3, 4.1 to 4.5, 6 and 7 of `spec.md`), shaped so that every
observable pinned by the in-repo test suite (effect counts, effect kinds,
acquisition states, progress values) is reproduced.  Identifiers are opaque
32-byte values in the node; they are embedded as `Nat`.
-/

namespace CasperSync

/-- Modelled from the spec: configuration value `max_simultaneous_peers`
(default 5); the missing `block_synchronizer` module reads it from `Config`.
`tests.rs` pins the same constant `MAX_SIMULTANEOUS_PEERS = 5`. -/
def MAX_SIMULTANEOUS_PEERS : Nat := 5

/-- Modelled from the spec: configuration value `latch_ttl` (5 s); the missing
`block_builder.rs` keeps it on the Builder's latch. -/
def LATCH_TTL : Nat := 5

/-- Reliability tier of a peer tracked by a Builder's peer list. -/
inductive PeerQuality
  | unknown
  | reliable
  | unreliable
deriving DecidableEq, Repr

/-- Modelled from the spec: the per-Builder `PeerList` of component C1
(`peer_list.rs` is absent from `src/`): a set of peer ids, each tagged
`Unknown | Reliable | Unreliable`. -/
structure PeerList where
  peers : List (Nat × PeerQuality)
deriving DecidableEq, Repr

/-- Whether a peer id is registered in the list. -/
def PeerList.contains_peer (pl : PeerList) (p : Nat) : Bool :=
  (pl.peers.map Prod.fst).contains p

/-- Modelled from the spec: `register_peers(peers)` merges peers into the list
with tag `Unknown` unless already present. -/
def PeerList.register_peers (pl : PeerList) : List Nat → PeerList
  | [] => pl
  | p :: rest =>
      (if pl.contains_peer p then pl
       else PeerList.mk (pl.peers ++ [(p, PeerQuality.unknown)])).register_peers rest

/-- Retag one registered peer; unregistered peers are left untouched. -/
def PeerList.set_quality (pl : PeerList) (p : Nat) (q : PeerQuality) : PeerList :=
  PeerList.mk (pl.peers.map (fun e => if e.1 = p then (p, q) else e))

/-- Modelled from the spec: `promote(peer)` tags the peer `Reliable` (peer
provided a valid item). -/
def PeerList.promote (pl : PeerList) (p : Nat) : PeerList :=
  pl.set_quality p PeerQuality.reliable

/-- Modelled from the spec: `demote(peer)` tags the peer `Unreliable` (absent
or invalid data, or reported by the global-state subsystem). -/
def PeerList.demote (pl : PeerList) (p : Nat) : PeerList :=
  pl.set_quality p PeerQuality.unreliable

/-- Demote every peer of a list (used for global-state sync error reports). -/
def PeerList.demote_all (pl : PeerList) (ps : List Nat) : PeerList :=
  ps.foldl PeerList.demote pl

/-- Observer `is_reliable(peer)` of the spec's peer list. -/
def PeerList.is_peer_reliable (pl : PeerList) (p : Nat) : Bool :=
  pl.peers.contains (p, PeerQuality.reliable)

/-- Observer `is_unreliable(peer)` of the spec's peer list; asserted on in
`tests.rs` (`global_state_sync_wont_stall_with_bad_peers`). -/
def PeerList.is_peer_unreliable (pl : PeerList) (p : Nat) : Bool :=
  pl.peers.contains (p, PeerQuality.unreliable)

/-- Peers eligible for sampling: the `Unknown ∪ Reliable` tiers. -/
def PeerList.qualified_peers (pl : PeerList) : List Nat :=
  (pl.peers.filter (fun e => decide (e.2 ≠ PeerQuality.unreliable))).map Prod.fst

/-- Modelled from the spec: `sample(n)` draws up to `n` distinct peers from
`Unknown ∪ Reliable`, falling back to `Unreliable` only if that set is empty.
The node draws uniformly at random; the embedding draws in list order, which
preserves every count and membership property the claims are about. -/
def PeerList.sample (pl : PeerList) (n : Nat) : List Nat :=
  let q := pl.qualified_peers
  if q.isEmpty then
    ((pl.peers.filter (fun e => decide (e.2 = PeerQuality.unreliable))).map Prod.fst).take n
  else q.take n

/-- Modelled from the spec: per-era validator weights, one row of the
`ValidatorMatrix` (`EraId → PublicKey → Weight`). -/
structure EraValidatorWeights where
  era_id : Nat
  weights : List (Nat × Nat)
deriving DecidableEq, Repr

/-- Total validator weight of the era. -/
def EraValidatorWeights.total (ev : EraValidatorWeights) : Nat :=
  (ev.weights.map Prod.snd).sum

/-- Weight of one public key (0 when not a validator of the era). -/
def EraValidatorWeights.weight_of (ev : EraValidatorWeights) (pk : Nat) : Nat :=
  ((ev.weights.filter (fun e => decide (e.1 = pk))).map Prod.snd).sum

/-- Whether a public key belongs to the era's validator set. -/
def EraValidatorWeights.is_validator (ev : EraValidatorWeights) (pk : Nat) : Bool :=
  (ev.weights.map Prod.fst).contains pk

/-- Accumulated weight of a set of signing public keys (kept duplicate-free by
the signature-acquisition logic). -/
def EraValidatorWeights.signed_weight (ev : EraValidatorWeights) (sigs : List Nat) : Nat :=
  (sigs.map ev.weight_of).sum

/-- Modelled from the spec: weak finality, accumulated weight at least
`⌈total/3⌉`; over the naturals this is `3·signed ≥ total`. -/
def EraValidatorWeights.has_weak_finality (ev : EraValidatorWeights) (sigs : List Nat) : Bool :=
  3 * ev.signed_weight sigs ≥ ev.total

/-- Modelled from the spec: strict finality, accumulated weight strictly more
than `2·total/3`; over the naturals this is `3·signed > 2·total`. -/
def EraValidatorWeights.has_strict_finality (ev : EraValidatorWeights) (sigs : List Nat) : Bool :=
  3 * ev.signed_weight sigs > 2 * ev.total

/-- Modelled from the spec: the shared `ValidatorMatrix`, a monotonic mapping
from era ids to validator-weight maps. -/
structure ValidatorMatrix where
  eras : List EraValidatorWeights
deriving DecidableEq, Repr

/-- Lookup of one era's validator weights. -/
def ValidatorMatrix.validator_weights (m : ValidatorMatrix) (era : Nat) :
    Option EraValidatorWeights :=
  m.eras.find? (fun ev => decide (ev.era_id = era))

/-- Modelled from the spec: `register_validator_weights(era, weights)` adds a
new era row; an era already covered is left unchanged (idempotent). -/
def ValidatorMatrix.register_validator_weights (m : ValidatorMatrix) (era : Nat)
    (w : List (Nat × Nat)) : ValidatorMatrix :=
  match m.validator_weights era with
  | some _ => m
  | none => ValidatorMatrix.mk (m.eras ++ [EraValidatorWeights.mk era w])

/-- Block header of the spec's data model; `block_hash` stands for the
(abstracted) hash of the header, the invariant `hash(header) == block_hash`
becoming an equality check against the Builder's block hash. -/
structure BlockHeader where
  block_hash : Nat
  era_id : Nat
  state_root : Nat
  height : Nat
deriving DecidableEq, Repr

/-- Block of the spec's data model: a header plus the body's ordered list of
deploy hashes.  A block is empty iff `deploy_hashes = []`. -/
structure Block where
  header : BlockHeader
  deploy_hashes : List Nat
deriving DecidableEq, Repr

/-- Finality signature identity `{block_hash, era_id, public_key}`; the
cryptographic payload is abstracted away (the embedding only handles
signatures that verify, as every claim's scenario does). -/
structure FinalitySignature where
  block_hash : Nat
  era_id : Nat
  public_key : Nat
deriving DecidableEq, Repr

/-- Modelled from the spec: the per-Builder block-acquisition state machine of
component C4 (`block_acquisition.rs` is absent from `src/`).  States carry the
artifacts the in-repo tests pattern-match on. -/
inductive BlockAcquisitionState
  | haveBlockHash
  | haveBlockHeader (header : BlockHeader)
  | haveWeakFinalitySignatures (header : BlockHeader)
  | haveBlock (block : Block)
  | haveApprovalsHashes (block : Block) (approvals : List Nat)
  | haveAllDeploys (block : Block)
  | haveStrictFinalitySignatures (block : Block)
  | haveGlobalState (block : Block)
  | haveAllExecutionResults (block : Block)
  | haveFinalizedBlock (block_hash : Nat)
  | executing (block_hash : Nat)
  | synced (block_hash : Nat)
  | failed (block_hash : Nat)
deriving DecidableEq, Repr

/-- Whether the acquisition state is the terminal `Failed` state. -/
def BlockAcquisitionState.is_failed : BlockAcquisitionState → Bool
  | .failed _ => true
  | _ => false

/-- Modelled from the spec: the externally observable requests (effects) the
synchronizer emits (section 6 of the spec), plus the internal `NeedNext`
request it can post to itself (observed by `tests.rs` in
`fwd_have_block_body_without_deploys_and_strict_finality_transitions_state_machine`). -/
inductive Effect
  | fullyConnectedPeers (count : Nat)
  | getPeersForBlock (block_hash : Nat)
  | fetchBlockHeader (id : Nat) (peer : Nat)
  | fetchSyncLeap (id : Nat) (peer : Nat)
  | fetchFinalitySignature (block_hash : Nat) (era_id : Nat) (public_key : Nat) (peer : Nat)
  | fetchBlock (id : Nat) (peer : Nat)
  | fetchApprovalsHashes (id : Nat) (peer : Nat)
  | fetchDeploy (deploy_hash : Nat) (approvals_hash : Nat) (peer : Nat)
  | fetchExecutionResults (id : Nat) (peer : Nat)
  | syncGlobalState (block_hash : Nat) (state_root : Nat)
  | makeBlockExecutable (block_hash : Nat)
  | enqueueBlockForExecution (block_hash : Nat)
  | needNextRequest
deriving DecidableEq, Repr

/-- Modelled from the spec: the per-block `Builder` of component C5
(`block_builder.rs` is absent from `src/`): block hash, lane flag, acquisition
state, peer list, accumulated signature set (as signing public keys), era
validator weights once known, and the latch.  The latch is the instant at
which fetches were last emitted (`none` when unlatched), checked against
`LATCH_TTL` on each `need_next`, exactly as the spec's design note describes
("a per-Builder timestamp, not a timer object"). -/
structure BlockBuilder where
  block_hash : Nat
  is_historical : Bool
  acquisition_state : BlockAcquisitionState
  peer_list : PeerList
  signatures : List Nat
  era_validators : Option EraValidatorWeights
  latch : Option Nat
deriving DecidableEq, Repr

/-- Fresh Builder installed by `register_block_by_hash`. -/
def BlockBuilder.new (h : Nat) (is_historical : Bool) : BlockBuilder :=
  { block_hash := h
    is_historical := is_historical
    acquisition_state := BlockAcquisitionState.haveBlockHash
    peer_list := PeerList.mk []
    signatures := []
    era_validators := none
    latch := none }

/-- Whether the Builder is latched at instant `now`: latched within
`LATCH_TTL` of the latching instant. -/
def BlockBuilder.latched (b : BlockBuilder) (now : Nat) : Bool :=
  match b.latch with
  | some t => now < t + LATCH_TTL
  | none => false

/-- Merge peers into the Builder's peer list (tag `Unknown` unless present). -/
def BlockBuilder.register_peers (b : BlockBuilder) (ps : List Nat) : BlockBuilder :=
  { b with peer_list := b.peer_list.register_peers ps }

/-- Era id of the header held by the Builder, when one is held. -/
def BlockBuilder.header_era (b : BlockBuilder) : Option Nat :=
  match b.acquisition_state with
  | .haveBlockHeader h => some h.era_id
  | .haveWeakFinalitySignatures h => some h.era_id
  | .haveBlock blk => some blk.header.era_id
  | .haveApprovalsHashes blk _ => some blk.header.era_id
  | .haveAllDeploys blk => some blk.header.era_id
  | .haveStrictFinalitySignatures blk => some blk.header.era_id
  | .haveGlobalState blk => some blk.header.era_id
  | .haveAllExecutionResults blk => some blk.header.era_id
  | _ => none

/-- Modelled from the spec: `register_block_header(header, sender?)` verifies
`hash(header) == block_hash` and advances `HaveBlockHash` to
`HaveBlockHeader`; a failing verification or an illegal state rejects the call
leaving the Builder unchanged (`none`). -/
def BlockBuilder.register_block_header (b : BlockBuilder) (h : BlockHeader) :
    Option BlockBuilder :=
  if h.block_hash == b.block_hash then
    match b.acquisition_state with
    | .haveBlockHash =>
        some { b with acquisition_state := BlockAcquisitionState.haveBlockHeader h }
    | _ => none
  else none

/-- Modelled from the spec: `register_era_validator_weights(matrix)` installs
the weights if the matrix covers the header's era, and unlatches the Builder
(pinned by `should_not_stall_after_registering_new_era_validator_weights` in
`tests.rs`). -/
def BlockBuilder.register_era_validator_weights (b : BlockBuilder) (m : ValidatorMatrix) :
    BlockBuilder :=
  if b.era_validators.isSome then b
  else
    match b.header_era with
    | none => b
    | some era =>
        match m.validator_weights era with
        | some ev => { b with era_validators := some ev, latch := none }
        | none => b

/-- Modelled from the spec: `register_finality_signature(sig, sender?)`
accepts a signature only if its block hash matches, its era matches the
installed era weights, its public key is an era validator, and it is not yet
present; weight tallies are incremental.  Reaching the weak threshold in
`HaveBlockHeader` advances to `HaveWeakFinalitySignatures`; reaching the
strict threshold in `HaveBlock` or `HaveAllDeploys` advances to
`HaveStrictFinalitySignatures` (the latter two transitions are pinned by
`fwd_have_block_with_strict_finality_requires_creation_of_finalized_block`
and `global_state_sync_wont_stall_with_bad_peers` in `tests.rs`). -/
def BlockBuilder.register_finality_signature (b : BlockBuilder) (sig : FinalitySignature) :
    Option BlockBuilder :=
  match b.era_validators with
  | none => none
  | some ev =>
      if sig.block_hash == b.block_hash && sig.era_id == ev.era_id
          && ev.is_validator sig.public_key then
        if b.signatures.contains sig.public_key then some b
        else
          let sigs := b.signatures ++ [sig.public_key]
          let st :=
            match b.acquisition_state with
            | .haveBlockHeader h =>
                if ev.has_weak_finality sigs then
                  BlockAcquisitionState.haveWeakFinalitySignatures h
                else BlockAcquisitionState.haveBlockHeader h
            | .haveBlock blk =>
                if ev.has_strict_finality sigs then
                  BlockAcquisitionState.haveStrictFinalitySignatures blk
                else BlockAcquisitionState.haveBlock blk
            | .haveAllDeploys blk =>
                if ev.has_strict_finality sigs then
                  BlockAcquisitionState.haveStrictFinalitySignatures blk
                else BlockAcquisitionState.haveAllDeploys blk
            | st => st
          some { b with signatures := sigs, acquisition_state := st }
      else none

/-- Modelled from the spec: `register_block(block, sender?)` verifies the body
against the held header and advances `HaveWeakFinalitySignatures` to
`HaveBlock`; any other state is an illegal transition and is rejected. -/
def BlockBuilder.register_block (b : BlockBuilder) (blk : Block) : Option BlockBuilder :=
  if blk.header.block_hash == b.block_hash then
    match b.acquisition_state with
    | .haveWeakFinalitySignatures _ =>
        some { b with acquisition_state := BlockAcquisitionState.haveBlock blk }
    | _ => none
  else none

/-- Modelled from the spec: the `NeedPeers` action of the `need_next` table —
forward lane asks the block accumulator for peers; historical lane also asks
the network for `MAX_SIMULTANEOUS_PEERS` fully connected peers (pinned by
`historical_sync_gets_peers_form_both_connected_peers_and_accumulator` and
`fwd_sync_gets_peers_only_from_accumulator` in `tests.rs`, including the
order of the two effects). -/
def BlockBuilder.need_peers_effects (b : BlockBuilder) : List Effect :=
  if b.is_historical then
    [Effect.fullyConnectedPeers MAX_SIMULTANEOUS_PEERS,
     Effect.getPeersForBlock b.block_hash]
  else [Effect.getPeersForBlock b.block_hash]

/-- Modelled from the spec: finality-signature fetches rotate across validator
keys not yet signed, one request per sampled peer, never exceeding
`MAX_SIMULTANEOUS_PEERS` outstanding requests (the sample is already bounded
by `MAX_SIMULTANEOUS_PEERS`, and `List.zip` truncates to the shorter list, so
the request count is `min (missing validators) (sampled peers)` as pinned by
`fwd_more_signatures_are_requested_if_weak_finality_is_not_reached`). -/
def BlockBuilder.signature_fetch_effects (b : BlockBuilder) (ev : EraValidatorWeights)
    (era : Nat) (sampled : List Nat) : List Effect :=
  let missing := (ev.weights.map Prod.fst).filter (fun pk => !(b.signatures.contains pk))
  (missing.zip sampled).map
    (fun pq => Effect.fetchFinalitySignature b.block_hash era pq.1 pq.2)

/-- Modelled from the spec: `need_next(now)` of the Builder, the heart of the
missing `block_builder.rs` / `block_acquisition.rs`.  While latched it
produces no effects; otherwise it follows the spec's `need_next` table,
latching after emitting external requests.  In `HaveBlock` with no deploys
and the strict threshold already met, it advances the state machine itself
and posts an internal `NeedNext` request (pinned by
`fwd_have_block_body_without_deploys_and_strict_finality_transitions_state_machine`
in `tests.rs`). -/
def BlockBuilder.need_next (b : BlockBuilder) (now : Nat) : BlockBuilder × List Effect :=
  if b.latched now then (b, [])
  else
    let sampled := b.peer_list.sample MAX_SIMULTANEOUS_PEERS
    match b.acquisition_state with
    | .haveBlockHash =>
        if sampled.isEmpty then ({ b with latch := some now }, b.need_peers_effects)
        else
          ({ b with latch := some now },
           sampled.map (fun p => Effect.fetchBlockHeader b.block_hash p))
    | .haveBlockHeader h =>
        if sampled.isEmpty then ({ b with latch := some now }, b.need_peers_effects)
        else
          match b.era_validators with
          | none =>
              ({ b with latch := some now },
               sampled.map (fun p => Effect.fetchSyncLeap b.block_hash p))
          | some ev =>
              ({ b with latch := some now },
               b.signature_fetch_effects ev h.era_id sampled)
    | .haveWeakFinalitySignatures _ =>
        if sampled.isEmpty then ({ b with latch := some now }, b.need_peers_effects)
        else
          ({ b with latch := some now },
           sampled.map (fun p => Effect.fetchBlock b.block_hash p))
    | .haveBlock blk =>
        if blk.deploy_hashes.isEmpty then
          match b.era_validators with
          | some ev =>
              if ev.has_strict_finality b.signatures then
                ({ b with
                    acquisition_state :=
                      BlockAcquisitionState.haveStrictFinalitySignatures blk },
                 [Effect.needNextRequest])
              else
                if sampled.isEmpty then
                  ({ b with latch := some now }, b.need_peers_effects)
                else
                  ({ b with latch := some now },
                   b.signature_fetch_effects ev blk.header.era_id sampled)
          | none => ({ b with latch := some now }, b.need_peers_effects)
        else
          if sampled.isEmpty then ({ b with latch := some now }, b.need_peers_effects)
          else
            ({ b with latch := some now },
             sampled.map (fun p => Effect.fetchApprovalsHashes b.block_hash p))
    | .haveApprovalsHashes blk approvals =>
        if sampled.isEmpty then ({ b with latch := some now }, b.need_peers_effects)
        else
          ({ b with latch := some now },
           ((blk.deploy_hashes.zip approvals).zip sampled).map
             (fun da => Effect.fetchDeploy da.1.1 da.1.2 da.2))
    | .haveAllDeploys blk =>
        match b.era_validators with
        | some ev =>
            if sampled.isEmpty then ({ b with latch := some now }, b.need_peers_effects)
            else
              ({ b with latch := some now },
               b.signature_fetch_effects ev blk.header.era_id sampled)
        | none => ({ b with latch := some now }, b.need_peers_effects)
    | .haveStrictFinalitySignatures blk =>
        if b.is_historical then
          ({ b with latch := some now },
           [Effect.syncGlobalState b.block_hash blk.header.state_root])
        else
          ({ b with latch := some now }, [Effect.makeBlockExecutable b.block_hash])
    | .haveGlobalState _ =>
        match sampled with
        | [] => ({ b with latch := some now }, b.need_peers_effects)
        | p :: _ =>
            ({ b with latch := some now },
             [Effect.fetchExecutionResults b.block_hash p])
    | .haveAllExecutionResults _ => (b, [])
    | .haveFinalizedBlock h =>
        ({ b with latch := some now }, [Effect.enqueueBlockForExecution h])
    | .executing _ => (b, [])
    | .synced _ => (b, [])
    | .failed _ => (b, [])

/-- Modelled from the spec: a transient fetch failure (`Absent`/`TimedOut`)
demotes the responding peer without changing the acquisition state, and the
incoming response clears the Builder's latch ("An incoming response for this
Builder clears the latch", spec section 4.3). -/
def BlockBuilder.register_fetch_failure (b : BlockBuilder) (peer : Nat) : BlockBuilder :=
  { b with peer_list := b.peer_list.demote peer, latch := none }

/-- Modelled from the spec: the `progress()` observer values of the Block
Synchronizer.  The spec's section 4.5 lists a `Failed` report; the in-repo
test `synchronizer_halts_if_block_cannot_be_made_executable` pins the
behavior of a Builder in the `Failed` acquisition state to a `Syncing`
report, so the modelled observer below never produces `failed`. -/
inductive BlockSynchronizerProgress
  | idle
  | syncing (block_hash : Nat)
  | executing (block_hash : Nat)
  | synced (block_hash : Nat)
  | failed (block_hash : Nat)
deriving DecidableEq, Repr

/-- Progress reported for one Builder: `Executing`/`Synced` in those terminal
phases and `Syncing` otherwise — including the `Failed` acquisition state, as
pinned by `synchronizer_halts_if_block_cannot_be_made_executable` in
`tests.rs` ("Progress should now indicate that the block is syncing"). -/
def BlockBuilder.builder_progress (b : BlockBuilder) : BlockSynchronizerProgress :=
  match b.acquisition_state with
  | .executing h => BlockSynchronizerProgress.executing h
  | .synced h => BlockSynchronizerProgress.synced h
  | _ => BlockSynchronizerProgress.syncing b.block_hash

/-- Modelled from the spec: the Block Synchronizer of component C6
(`block_synchronizer` module absent from `src/`): the shared validator
matrix plus at most one forward and one historical Builder. -/
structure BlockSynchronizer where
  validator_matrix : ValidatorMatrix
  forward : Option BlockBuilder
  historical : Option BlockBuilder
deriving DecidableEq, Repr

/-- Modelled from the spec: `register_block_by_hash(hash, is_historical)`:
create a Builder when the lane's slot is empty or its Builder is `Failed`;
reject (`false`) when the slot holds an active Builder for the same hash;
replace the Builder when the active Builder tracks a different hash. -/
def BlockSynchronizer.register_block_by_hash (s : BlockSynchronizer) (h : Nat)
    (is_historical : Bool) : Bool × BlockSynchronizer :=
  let slot := if is_historical then s.historical else s.forward
  let accept :=
    match slot with
    | none => true
    | some b => b.acquisition_state.is_failed || !(b.block_hash == h)
  if accept then
    let nb := BlockBuilder.new h is_historical
    (true,
     if is_historical then { s with historical := some nb }
     else { s with forward := some nb })
  else (false, s)

/-- Modelled from the spec: `register_peers` routes the peers to the Builders
tracking the given block hash. -/
def BlockSynchronizer.register_peers (s : BlockSynchronizer) (h : Nat) (ps : List Nat) :
    BlockSynchronizer :=
  let upd : Option BlockBuilder → Option BlockBuilder := fun ob =>
    match ob with
    | some b => if b.block_hash == h then some (b.register_peers ps) else some b
    | none => none
  { s with forward := upd s.forward, historical := upd s.historical }

/-- Modelled from the spec: the synchronizer's `need_next` inspects the
historical Builder and then the forward Builder, concatenating their
effects. -/
def BlockSynchronizer.need_next (s : BlockSynchronizer) (now : Nat) :
    BlockSynchronizer × List Effect :=
  let hist :=
    match s.historical with
    | some b => let r := b.need_next now; (some r.1, r.2)
    | none => (none, [])
  let fwd :=
    match s.forward with
    | some b => let r := b.need_next now; (some r.1, r.2)
    | none => (none, [])
  ({ s with historical := hist.1, forward := fwd.1 }, hist.2 ++ fwd.2)

/-- Modelled from the spec: handling of a `BlockHeaderFetched` result carrying
an `Absent` fetch error for the forward Builder: the peer is demoted, the
state is kept, the incoming response clears the latch, and the component
computes `need_next` for the follow-up effects. -/
def BlockSynchronizer.block_header_fetched_absent (s : BlockSynchronizer)
    (h : Nat) (peer : Nat) (now : Nat) : BlockSynchronizer × List Effect :=
  match s.forward with
  | some b =>
      if b.block_hash == h then
        let r := (b.register_fetch_failure peer).need_next now
        ({ s with forward := some r.1 }, r.2)
      else (s, [])
  | none => (s, [])

/-- Modelled from the spec: `GlobalStateSynced` handling on the historical
lane.  A `TrieAccumulator` (root-not-found) error demotes the peers listed in
the error and keeps the state (`re-enter HaveStrictFinalitySignatures`); the
latch is kept, the request being retried after latch expiry (spec section 7,
"Transient fetch failure ... retried after latch expiry").  A success demotes
the reported unreliable peers, advances the state machine to
`HaveGlobalState` and clears the latch. -/
def BlockSynchronizer.global_state_synced (s : BlockSynchronizer) (h : Nat)
    (result : Except (List Nat) (Nat × List Nat)) : BlockSynchronizer :=
  match s.historical with
  | some b =>
      if b.block_hash == h then
        match result with
        | .error bad =>
            { s with historical := some { b with peer_list := b.peer_list.demote_all bad } }
        | .ok (_, unreliable) =>
            let st :=
              match b.acquisition_state with
              | .haveStrictFinalitySignatures blk =>
                  BlockAcquisitionState.haveGlobalState blk
              | st => st
            let b' : BlockBuilder :=
              { b with peer_list := b.peer_list.demote_all unreliable,
                       acquisition_state := st, latch := none }
            { s with historical := some b' }
      else s
  | none => s

/-- Modelled from the spec: `MadeFinalizedBlock` handling on the forward lane.
`result = None` means the block cannot be made executable: the Builder moves
to the terminal `Failed` state and no effect is emitted.  A `Some` result
advances `HaveStrictFinalitySignatures` to `HaveFinalizedBlock` and requests
the enqueueing of the block for execution. -/
def BlockSynchronizer.made_finalized_block (s : BlockSynchronizer) (h : Nat)
    (result : Option Nat) : BlockSynchronizer × List Effect :=
  match s.forward with
  | some b =>
      if b.block_hash == h then
        match result with
        | none =>
            let b' : BlockBuilder :=
              { b with acquisition_state := BlockAcquisitionState.failed h }
            ({ s with forward := some b' }, [])
        | some _ =>
            match b.acquisition_state with
            | .haveStrictFinalitySignatures _ =>
                let b' : BlockBuilder :=
                  { b with acquisition_state := BlockAcquisitionState.haveFinalizedBlock h,
                           latch := none }
                ({ s with forward := some b' }, [Effect.enqueueBlockForExecution h])
            | _ => (s, [])
      else (s, [])
  | none => (s, [])

/-- Modelled from the spec: `progress()` of the forward lane (`Idle` when no
forward Builder is installed). -/
def BlockSynchronizer.forward_progress (s : BlockSynchronizer) : BlockSynchronizerProgress :=
  match s.forward with
  | some b => b.builder_progress
  | none => BlockSynchronizerProgress.idle

/-- Acquisition state of the forward Builder, when one is installed. -/
def BlockSynchronizer.forward_state (s : BlockSynchronizer) : Option BlockAcquisitionState :=
  s.forward.map BlockBuilder.acquisition_state

/-- Block hash tracked by the forward Builder, when one is installed. -/
def BlockSynchronizer.forward_hash (s : BlockSynchronizer) : Option Nat :=
  s.forward.map BlockBuilder.block_hash

/-- From `tests.rs` (`weak_finality_threshold`): the number of validators that
need a signature for a weak finality of 1/3, written there as
`n / 3 + if n % 3 == 0 { 0 } else { 1 }`. -/
def weak_finality_threshold (n : Nat) : Nat :=
  n / 3 + if n % 3 == 0 then 0 else 1

/-- Era weights for `n` validators of equal weight `w` (public keys
`0, …, n-1`), as generated by `TestEnv::gen_validator_matrix` in `tests.rs`
(every validator gets the same weight, 100 in the tests). -/
def equal_validator_weights (era n w : Nat) : EraValidatorWeights :=
  EraValidatorWeights.mk era ((List.range n).map (fun pk => (pk, w)))

/-- Validator matrix of the `MadeFinalizedBlock { result: None }` scenario:
a single era-0 validator (public key 1) of weight 100. -/
def c2_matrix : ValidatorMatrix :=
  ValidatorMatrix.mk [EraValidatorWeights.mk 0 [(1, 100)]]

/-- Header of the scenario block (hash 7, era 0, state root 99, height 5). -/
def c2_header : BlockHeader := BlockHeader.mk 7 0 99 5

/-- The scenario block: no deploys. -/
def c2_block : Block := Block.mk c2_header []

/-- Forward Builder of the scenario, driven from registration to
`HaveStrictFinalitySignatures` through the modelled operations (register the
header, the era weights, the lone validator's signature — weak and strict
finality with one validator — the block, then one `need_next`). -/
def c2_builder : BlockBuilder :=
  let b0 := (BlockBuilder.new 7 false).register_peers [11, 12]
  let b1 := (b0.register_block_header c2_header).getD b0
  let b2 := b1.register_era_validator_weights c2_matrix
  let b3 := (b2.register_finality_signature (FinalitySignature.mk 7 0 1)).getD b2
  let b4 := (b3.register_block c2_block).getD b3
  (b4.need_next 0).1

/-- Synchronizer state after `MadeFinalizedBlock { result: None }` arrives for
the scenario Builder. -/
def c2_after : BlockSynchronizer :=
  ((BlockSynchronizer.mk c2_matrix (some c2_builder) none).made_finalized_block 7 none).1

/-! Helper lemmas about the peer list. -/

theorem map_fst_set_quality (pl : PeerList) (q : Nat) (qual : PeerQuality) :
    (pl.set_quality q qual).peers.map Prod.fst = pl.peers.map Prod.fst := by
  simp only [PeerList.set_quality, List.map_map]
  refine List.map_eq_map_iff.mpr ?_
  intro e _
  by_cases h : e.1 = q <;> simp [Function.comp, h]

theorem contains_peer_set_quality (pl : PeerList) (p q : Nat) (qual : PeerQuality) :
    (pl.set_quality q qual).contains_peer p = pl.contains_peer p := by
  unfold PeerList.contains_peer
  rw [map_fst_set_quality]

theorem is_peer_unreliable_demote_self (pl : PeerList) (p : Nat)
    (hp : pl.contains_peer p = true) : (pl.demote p).is_peer_unreliable p = true := by
  unfold PeerList.contains_peer at hp
  have hp' : p ∈ pl.peers.map Prod.fst := List.elem_iff.mp hp
  obtain ⟨e, he, hfst⟩ := List.mem_map.mp hp'
  refine List.elem_iff.mpr ?_
  unfold PeerList.demote PeerList.set_quality
  exact List.mem_map.mpr ⟨e, he, by simp [hfst]⟩

theorem is_peer_unreliable_demote_mono (pl : PeerList) (p q : Nat)
    (hp : pl.is_peer_unreliable p = true) : (pl.demote q).is_peer_unreliable p = true := by
  unfold PeerList.is_peer_unreliable at hp ⊢
  have hm : (p, PeerQuality.unreliable) ∈ pl.peers := List.elem_iff.mp hp
  refine List.elem_iff.mpr ?_
  unfold PeerList.demote PeerList.set_quality
  refine List.mem_map.mpr ⟨(p, PeerQuality.unreliable), hm, ?_⟩
  by_cases h : p = q <;> simp [h]

theorem is_peer_unreliable_demote_all_mono (pl : PeerList) (ps : List Nat) (p : Nat)
    (hp : pl.is_peer_unreliable p = true) :
    (pl.demote_all ps).is_peer_unreliable p = true := by
  induction ps generalizing pl with
  | nil => exact hp
  | cons q rest ih =>
      show (PeerList.demote_all (pl.demote q) rest).is_peer_unreliable p = true
      exact ih (pl.demote q) (is_peer_unreliable_demote_mono pl p q hp)

theorem is_peer_unreliable_demote_all (pl : PeerList) (ps : List Nat) (p : Nat)
    (hmem : p ∈ ps) (hp : pl.contains_peer p = true) :
    (pl.demote_all ps).is_peer_unreliable p = true := by
  induction ps generalizing pl with
  | nil => cases hmem
  | cons q rest ih =>
      show (PeerList.demote_all (pl.demote q) rest).is_peer_unreliable p = true
      rcases List.mem_cons.mp hmem with h | h
      · subst h
        exact is_peer_unreliable_demote_all_mono _ rest p
          (is_peer_unreliable_demote_self pl p hp)
      · refine ih (pl.demote q) h ?_
        unfold PeerList.demote
        rw [contains_peer_set_quality]
        exact hp

theorem sample_ne_nil_of_qualified (pl : PeerList) (n : Nat) (hn : n ≠ 0)
    (hq : pl.qualified_peers ≠ []) : pl.sample n ≠ [] := by
  unfold PeerList.sample
  have hemp : pl.qualified_peers.isEmpty = false := by
    rw [Bool.eq_false_iff]
    intro hT
    exact hq (List.isEmpty_iff.mp hT)
  simp only [hemp, Bool.false_eq_true, if_false]
  rw [Ne, List.take_eq_nil_iff]
  push_neg
  exact ⟨hn, hq⟩

theorem sample_mem_qualified (pl : PeerList) (n : Nat) (hq : pl.qualified_peers ≠ [])
    (p : Nat) (hp : p ∈ pl.sample n) : p ∈ pl.qualified_peers := by
  unfold PeerList.sample at hp
  have hemp : pl.qualified_peers.isEmpty = false := by
    rw [Bool.eq_false_iff]
    intro hT
    exact hq (List.isEmpty_iff.mp hT)
  simp only [hemp, Bool.false_eq_true, if_false] at hp
  exact List.mem_of_mem_take hp

theorem qualified_peers_all_unknown (ps : List Nat) :
    (PeerList.mk (ps.map (fun p => (p, PeerQuality.unknown)))).qualified_peers = ps := by
  induction ps with
  | nil => rfl
  | cons p rest ih =>
      simp only [PeerList.qualified_peers, List.map_cons, List.filter_cons] at ih ⊢
      simpa using ih

theorem sample_all_unknown (ps : List Nat) (n : Nat) :
    (PeerList.mk (ps.map (fun p => (p, PeerQuality.unknown)))).sample n = ps.take n := by
  unfold PeerList.sample
  rw [qualified_peers_all_unknown]
  by_cases hps : ps = []
  · subst hps
    simp
  · have hemp : ps.isEmpty = false := by
      rw [Bool.eq_false_iff]
      intro hT
      exact hps (List.isEmpty_iff.mp hT)
    simp only [hemp, Bool.false_eq_true, if_false]

/-! Claim theorems. -/

/-- Claim C8: with an empty peer list, handling `NeedNext` emits exactly one
effect for a forward Builder — the block-accumulator `GetPeersForBlock`
request — and exactly two effects for a historical Builder — the
`FullyConnectedPeers` network request with count `MAX_SIMULTANEOUS_PEERS`
followed by the accumulator request. -/
theorem claim_c8_need_peers_effects (m : ValidatorMatrix) (h now : Nat) :
    ((((BlockSynchronizer.mk m none none).register_block_by_hash h false).2.need_next now).2
        = [Effect.getPeersForBlock h]) ∧
    ((((BlockSynchronizer.mk m none none).register_block_by_hash h true).2.need_next now).2
        = [Effect.fullyConnectedPeers MAX_SIMULTANEOUS_PEERS, Effect.getPeersForBlock h]) := by
  exact ⟨rfl, rfl⟩

/-- Claim C9: a forward Builder in `HaveBlockHash` whose peer list holds at
least `MAX_SIMULTANEOUS_PEERS` registered peers emits exactly
`MAX_SIMULTANEOUS_PEERS` block-header fetch requests, each addressed to a
registered peer and each carrying the Builder's block hash as the fetch
id. -/
theorem claim_c9_header_fetch_fanout (h now : Nat) (ps : List Nat)
    (hlen : MAX_SIMULTANEOUS_PEERS ≤ ps.length) :
    (((BlockBuilder.mk h false BlockAcquisitionState.haveBlockHash
          (PeerList.mk (ps.map (fun p => (p, PeerQuality.unknown)))) [] none none).need_next
        now).2.length = MAX_SIMULTANEOUS_PEERS) ∧
    ∀ e ∈ ((BlockBuilder.mk h false BlockAcquisitionState.haveBlockHash
          (PeerList.mk (ps.map (fun p => (p, PeerQuality.unknown)))) [] none none).need_next
        now).2, ∃ p, p ∈ ps ∧ e = Effect.fetchBlockHeader h p := by
  have hps : ps ≠ [] := by
    intro h0
    rw [h0] at hlen
    simp [MAX_SIMULTANEOUS_PEERS] at hlen
  have hne : ps.take MAX_SIMULTANEOUS_PEERS ≠ [] := by
    rw [Ne, List.take_eq_nil_iff]
    push_neg
    exact ⟨by simp [MAX_SIMULTANEOUS_PEERS], hps⟩
  have hemp : (ps.take MAX_SIMULTANEOUS_PEERS).isEmpty = false := by
    rw [Bool.eq_false_iff]
    intro hT
    exact hne (List.isEmpty_iff.mp hT)
  have hr : (((BlockBuilder.mk h false BlockAcquisitionState.haveBlockHash
          (PeerList.mk (ps.map (fun p => (p, PeerQuality.unknown)))) [] none none).need_next
        now).2)
      = (ps.take MAX_SIMULTANEOUS_PEERS).map (fun p => Effect.fetchBlockHeader h p) := by
    unfold BlockBuilder.need_next
    simp only [BlockBuilder.latched, Bool.false_eq_true, if_false, sample_all_unknown,
      hemp]
  rw [hr]
  constructor
  · rw [List.length_map, List.length_take]
    exact Nat.min_eq_left hlen
  · intro e he
    obtain ⟨p, hp, rfl⟩ := List.mem_map.mp he
    exact ⟨p, List.mem_of_mem_take hp, rfl⟩

/-- Witness for C9 at a concrete input: six registered peers. -/
theorem claim_c9_witness :
    (MAX_SIMULTANEOUS_PEERS ≤ ([11, 12, 13, 14, 15, 16] : List Nat).length) ∧
    ((((BlockBuilder.mk 7 false BlockAcquisitionState.haveBlockHash
          (PeerList.mk (([11, 12, 13, 14, 15, 16] : List Nat).map
            (fun p => (p, PeerQuality.unknown)))) [] none none).need_next
        0).2.length = MAX_SIMULTANEOUS_PEERS) ∧
      ∀ e ∈ ((BlockBuilder.mk 7 false BlockAcquisitionState.haveBlockHash
          (PeerList.mk (([11, 12, 13, 14, 15, 16] : List Nat).map
            (fun p => (p, PeerQuality.unknown)))) [] none none).need_next
        0).2, ∃ p, p ∈ ([11, 12, 13, 14, 15, 16] : List Nat) ∧
          e = Effect.fetchBlockHeader 7 p) :=
  ⟨by decide, claim_c9_header_fetch_fanout 7 0 [11, 12, 13, 14, 15, 16] (by decide)⟩

/-- Claim C10: a forward Builder in `HaveBlock` for a block without deploys
whose registered signatures already meet the strict threshold advances, in a
single `need_next` call, to `HaveStrictFinalitySignatures` and returns
exactly one effect — the internal `NeedNext` request, not an external fetch
and not a `MakeBlockExecutable` request. -/
theorem claim_c10_strict_transition_in_need_next (blk : Block) (pl : PeerList)
    (sigs : List Nat) (ev : EraValidatorWeights) (now : Nat)
    (hempty : blk.deploy_hashes = [])
    (hstrict : ev.has_strict_finality sigs = true) :
    (((BlockBuilder.mk blk.header.block_hash false (BlockAcquisitionState.haveBlock blk) pl
          sigs (some ev) none).need_next now).1.acquisition_state
        = BlockAcquisitionState.haveStrictFinalitySignatures blk) ∧
    (((BlockBuilder.mk blk.header.block_hash false (BlockAcquisitionState.haveBlock blk) pl
          sigs (some ev) none).need_next now).2 = [Effect.needNextRequest]) := by
  unfold BlockBuilder.need_next
  simp [BlockBuilder.latched, hempty, hstrict]

/-- Witness for C10 at a concrete input: one era-0 validator of weight 100
that has signed, an empty block. -/
theorem claim_c10_witness :
    ((Block.mk (BlockHeader.mk 7 0 99 5) []).deploy_hashes = [] ∧
      (EraValidatorWeights.mk 0 [(1, 100)]).has_strict_finality [1] = true) ∧
    ((((BlockBuilder.mk (Block.mk (BlockHeader.mk 7 0 99 5) []).header.block_hash false
          (BlockAcquisitionState.haveBlock (Block.mk (BlockHeader.mk 7 0 99 5) []))
          (PeerList.mk [(11, PeerQuality.unknown)]) [1]
          (some (EraValidatorWeights.mk 0 [(1, 100)])) none).need_next 0).1.acquisition_state
        = BlockAcquisitionState.haveStrictFinalitySignatures
            (Block.mk (BlockHeader.mk 7 0 99 5) [])) ∧
      (((BlockBuilder.mk (Block.mk (BlockHeader.mk 7 0 99 5) []).header.block_hash false
          (BlockAcquisitionState.haveBlock (Block.mk (BlockHeader.mk 7 0 99 5) []))
          (PeerList.mk [(11, PeerQuality.unknown)]) [1]
          (some (EraValidatorWeights.mk 0 [(1, 100)])) none).need_next 0).2
        = [Effect.needNextRequest])) :=
  ⟨by decide,
   claim_c10_strict_transition_in_need_next (Block.mk (BlockHeader.mk 7 0 99 5) [])
     (PeerList.mk [(11, PeerQuality.unknown)]) [1]
     (EraValidatorWeights.mk 0 [(1, 100)]) 0 (by decide) (by decide)⟩

/-- Claim C2, counterexample: the scenario Builder fails on
`MadeFinalizedBlock { result: None }`, but the synchronizer's `progress()`
observer reports `Syncing(hash, …)`, not `Failed(hash, reason)` — exactly as
the in-repo test `synchronizer_halts_if_block_cannot_be_made_executable`
asserts. -/
theorem claim_c2_counterexample :
    c2_after.forward_state = some (BlockAcquisitionState.failed 7) ∧
    c2_after.forward_progress = BlockSynchronizerProgress.syncing 7 ∧
    c2_after.forward_progress ≠ BlockSynchronizerProgress.failed 7 := by
  decide

/-- Claim C2 as amended: for every forward Builder that has reached
`HaveStrictFinalitySignatures`, receiving `MadeFinalizedBlock` with result
`None` transitions the Builder to the `Failed` state with no emitted effect,
and the synchronizer's `progress()` observer then reports `Syncing(hash, …)`
for that block hash (the failure is observable through
`block_acquisition_state`, not through `progress()`). -/
theorem claim_c2_cannot_make_executable (m : ValidatorMatrix) (oh : Option BlockBuilder)
    (h : Nat) (blk : Block) (pl : PeerList) (sigs : List Nat)
    (ev : Option EraValidatorWeights) (l : Option Nat) :
    (((BlockSynchronizer.mk m
          (some (BlockBuilder.mk h false
            (BlockAcquisitionState.haveStrictFinalitySignatures blk) pl sigs ev l)) oh
        ).made_finalized_block h none).1.forward_state
        = some (BlockAcquisitionState.failed h)) ∧
    (((BlockSynchronizer.mk m
          (some (BlockBuilder.mk h false
            (BlockAcquisitionState.haveStrictFinalitySignatures blk) pl sigs ev l)) oh
        ).made_finalized_block h none).2 = []) ∧
    (((BlockSynchronizer.mk m
          (some (BlockBuilder.mk h false
            (BlockAcquisitionState.haveStrictFinalitySignatures blk) pl sigs ev l)) oh
        ).made_finalized_block h none).1.forward_progress
        = BlockSynchronizerProgress.syncing h) := by
  unfold BlockSynchronizer.made_finalized_block BlockSynchronizer.forward_state
    BlockSynchronizer.forward_progress BlockBuilder.builder_progress
  simp

/-! Helper lemmas about signature-fetch effects. -/

theorem signature_fetch_effects_shape (b : BlockBuilder) (ev : EraValidatorWeights)
    (era : Nat) (sampled : List Nat) :
    ∀ e ∈ b.signature_fetch_effects ev era sampled,
      ∃ pk p, pk ∈ ev.weights.map Prod.fst ∧ p ∈ sampled ∧
        e = Effect.fetchFinalitySignature b.block_hash era pk p := by
  intro e he
  unfold BlockBuilder.signature_fetch_effects at he
  obtain ⟨⟨pk, p⟩, hmem, rfl⟩ := List.mem_map.mp he
  have h1 := List.of_mem_zip hmem
  exact ⟨pk, p, List.mem_of_mem_filter h1.1, h1.2, rfl⟩

theorem signature_fetch_effects_ne_nil (b : BlockBuilder) (ev : EraValidatorWeights)
    (era : Nat) (sampled : List Nat)
    (hmiss : (ev.weights.map Prod.fst).filter (fun pk => !(b.signatures.contains pk)) ≠ [])
    (hs : sampled ≠ []) : b.signature_fetch_effects ev era sampled ≠ [] := by
  unfold BlockBuilder.signature_fetch_effects
  intro hz
  rw [List.map_eq_nil_iff] at hz
  have hlen := congrArg List.length hz
  rw [List.length_zip] at hlen
  simp only [List.length_nil, Nat.min_eq_zero_iff, List.length_eq_zero] at hlen
  rcases hlen with hmm | hss
  · exact hmiss hmm
  · exact hs hss

/-- Claim C5: `register_block_by_hash(h, lane)` returns true and installs a
Builder when the lane's slot is empty; a second call with the same hash while
the Builder is active returns false and leaves the synchronizer unchanged; a
call with a different hash returns true and replaces the Builder, which
afterwards tracks the new hash. -/
theorem claim_c5_register_block_by_hash (m : ValidatorMatrix) (oh : Option BlockBuilder)
    (h h' : Nat) (hne : h ≠ h') :
    (((BlockSynchronizer.mk m none oh).register_block_by_hash h false).1 = true) ∧
    (((BlockSynchronizer.mk m none oh).register_block_by_hash h false).2.forward
        = some (BlockBuilder.new h false)) ∧
    (((((BlockSynchronizer.mk m none oh).register_block_by_hash h false).2
        ).register_block_by_hash h false).1 = false) ∧
    (((((BlockSynchronizer.mk m none oh).register_block_by_hash h false).2
        ).register_block_by_hash h false).2
        = ((BlockSynchronizer.mk m none oh).register_block_by_hash h false).2) ∧
    (((((BlockSynchronizer.mk m none oh).register_block_by_hash h false).2
        ).register_block_by_hash h' false).1 = true) ∧
    (((((BlockSynchronizer.mk m none oh).register_block_by_hash h false).2
        ).register_block_by_hash h' false).2.forward_hash = some h') := by
  unfold BlockSynchronizer.register_block_by_hash BlockSynchronizer.forward_hash
  simp [BlockBuilder.new, BlockAcquisitionState.is_failed, hne]

/-- Witness for C5 at a concrete input: hashes 7 and 8. -/
theorem claim_c5_witness :
    ((7 : Nat) ≠ 8) ∧
    ((((BlockSynchronizer.mk (ValidatorMatrix.mk []) none none).register_block_by_hash
        7 false).1 = true) ∧
    ((((BlockSynchronizer.mk (ValidatorMatrix.mk []) none none).register_block_by_hash
        7 false).2.forward = some (BlockBuilder.new 7 false))) ∧
    (((((BlockSynchronizer.mk (ValidatorMatrix.mk []) none none).register_block_by_hash
        7 false).2).register_block_by_hash 7 false).1 = false) ∧
    (((((BlockSynchronizer.mk (ValidatorMatrix.mk []) none none).register_block_by_hash
        7 false).2).register_block_by_hash 7 false).2
        = (((BlockSynchronizer.mk (ValidatorMatrix.mk []) none none)).register_block_by_hash
            7 false).2) ∧
    (((((BlockSynchronizer.mk (ValidatorMatrix.mk []) none none).register_block_by_hash
        7 false).2).register_block_by_hash 8 false).1 = true) ∧
    (((((BlockSynchronizer.mk (ValidatorMatrix.mk []) none none).register_block_by_hash
        7 false).2).register_block_by_hash 8 false).2.forward_hash = some 8)) :=
  ⟨by decide, claim_c5_register_block_by_hash (ValidatorMatrix.mk []) none 7 8 (by decide)⟩

/-- Claim C3: for every latched Builder, `need_next` returns no effects; and
for a latched historical Builder in `HaveBlockHeader` without era validators,
calling `register_era_validator_weights` with a matrix that covers the
header's era installs the weights and unlatches it, so the next `need_next`
returns a non-empty set of effects, all of them finality-signature fetches
for the Builder's block and era. -/
theorem claim_c3_latch_and_unlatch (hd : BlockHeader) (t now : Nat) (pl : PeerList)
    (m : ValidatorMatrix) (ev : EraValidatorWeights)
    (hcov : m.validator_weights hd.era_id = some ev)
    (hq : pl.qualified_peers ≠ [])
    (hw : ev.weights ≠ []) :
    (∀ (c : BlockBuilder) (u : Nat), c.latched u = true → (c.need_next u).2 = []) ∧
    ((BlockBuilder.mk hd.block_hash true (BlockAcquisitionState.haveBlockHeader hd) pl []
        none (some t)).latched t = true) ∧
    (((BlockBuilder.mk hd.block_hash true (BlockAcquisitionState.haveBlockHeader hd) pl []
        none (some t)).register_era_validator_weights m).latch = none) ∧
    ((((BlockBuilder.mk hd.block_hash true (BlockAcquisitionState.haveBlockHeader hd) pl []
        none (some t)).register_era_validator_weights m).need_next now).2 ≠ []) ∧
    (∀ e ∈ (((BlockBuilder.mk hd.block_hash true (BlockAcquisitionState.haveBlockHeader hd)
        pl [] none (some t)).register_era_validator_weights m).need_next now).2,
      ∃ pk p, e = Effect.fetchFinalitySignature hd.block_hash hd.era_id pk p) := by
  have hreg : (BlockBuilder.mk hd.block_hash true
      (BlockAcquisitionState.haveBlockHeader hd) pl [] none
      (some t)).register_era_validator_weights m
      = BlockBuilder.mk hd.block_hash true (BlockAcquisitionState.haveBlockHeader hd) pl []
          (some ev) none := by
    unfold BlockBuilder.register_era_validator_weights BlockBuilder.header_era
    simp [hcov]
  have hsampled : pl.sample MAX_SIMULTANEOUS_PEERS ≠ [] :=
    sample_ne_nil_of_qualified pl MAX_SIMULTANEOUS_PEERS
      (by simp [MAX_SIMULTANEOUS_PEERS]) hq
  have hsemp : (pl.sample MAX_SIMULTANEOUS_PEERS).isEmpty = false := by
    rw [Bool.eq_false_iff]
    intro hT
    exact hsampled (List.isEmpty_iff.mp hT)
  have hmiss : ((ev.weights.map Prod.fst).filter
      (fun pk => !(([] : List Nat).contains pk))) = ev.weights.map Prod.fst := by
    refine List.filter_eq_self.mpr ?_
    intro a _
    rfl
  have hneed : ((BlockBuilder.mk hd.block_hash true
      (BlockAcquisitionState.haveBlockHeader hd) pl [] (some ev) none).need_next now).2
      = (BlockBuilder.mk hd.block_hash true (BlockAcquisitionState.haveBlockHeader hd) pl []
          (some ev) none).signature_fetch_effects ev hd.era_id
          (pl.sample MAX_SIMULTANEOUS_PEERS) := by
    unfold BlockBuilder.need_next
    simp only [BlockBuilder.latched, Bool.false_eq_true, if_false, hsemp]
  refine ⟨?_, ?_, ?_, ?_, ?_⟩
  · intro c u hcu
    unfold BlockBuilder.need_next
    rw [hcu]
    simp
  · simp [BlockBuilder.latched, LATCH_TTL]
  · rw [hreg]
  · rw [hreg, hneed]
    refine signature_fetch_effects_ne_nil _ ev hd.era_id _ ?_ hsampled
    rw [hmiss]
    intro hnil
    rw [List.map_eq_nil_iff] at hnil
    exact hw hnil
  · rw [hreg, hneed]
    intro e he
    obtain ⟨pk, p, _, _, rfl⟩ := signature_fetch_effects_shape _ ev hd.era_id _ e he
    exact ⟨pk, p, rfl⟩

/-- Witness for C3 at a concrete input: header for block 7 in era 0, matrix
covering era 0 with one validator, two registered peers, latched at 0. -/
theorem claim_c3_witness :
    ((ValidatorMatrix.mk [EraValidatorWeights.mk 0 [(1, 100)]]).validator_weights
        (BlockHeader.mk 7 0 99 5).era_id = some (EraValidatorWeights.mk 0 [(1, 100)]) ∧
      (PeerList.mk [(11, PeerQuality.unknown), (12, PeerQuality.unknown)]).qualified_peers
        ≠ [] ∧
      (EraValidatorWeights.mk 0 [(1, 100)]).weights ≠ []) ∧
    ((∀ (c : BlockBuilder) (u : Nat), c.latched u = true → (c.need_next u).2 = []) ∧
    ((BlockBuilder.mk (BlockHeader.mk 7 0 99 5).block_hash true
        (BlockAcquisitionState.haveBlockHeader (BlockHeader.mk 7 0 99 5))
        (PeerList.mk [(11, PeerQuality.unknown), (12, PeerQuality.unknown)]) []
        none (some 0)).latched 0 = true) ∧
    (((BlockBuilder.mk (BlockHeader.mk 7 0 99 5).block_hash true
        (BlockAcquisitionState.haveBlockHeader (BlockHeader.mk 7 0 99 5))
        (PeerList.mk [(11, PeerQuality.unknown), (12, PeerQuality.unknown)]) []
        none (some 0)).register_era_validator_weights
        (ValidatorMatrix.mk [EraValidatorWeights.mk 0 [(1, 100)]])).latch = none) ∧
    ((((BlockBuilder.mk (BlockHeader.mk 7 0 99 5).block_hash true
        (BlockAcquisitionState.haveBlockHeader (BlockHeader.mk 7 0 99 5))
        (PeerList.mk [(11, PeerQuality.unknown), (12, PeerQuality.unknown)]) []
        none (some 0)).register_era_validator_weights
        (ValidatorMatrix.mk [EraValidatorWeights.mk 0 [(1, 100)]])).need_next 9).2 ≠ []) ∧
    (∀ e ∈ (((BlockBuilder.mk (BlockHeader.mk 7 0 99 5).block_hash true
        (BlockAcquisitionState.haveBlockHeader (BlockHeader.mk 7 0 99 5))
        (PeerList.mk [(11, PeerQuality.unknown), (12, PeerQuality.unknown)]) []
        none (some 0)).register_era_validator_weights
        (ValidatorMatrix.mk [EraValidatorWeights.mk 0 [(1, 100)]])).need_next 9).2,
      ∃ pk p, e = Effect.fetchFinalitySignature (BlockHeader.mk 7 0 99 5).block_hash
        (BlockHeader.mk 7 0 99 5).era_id pk p)) :=
  ⟨⟨by decide, by decide, by decide⟩,
   claim_c3_latch_and_unlatch (BlockHeader.mk 7 0 99 5) 0 9
     (PeerList.mk [(11, PeerQuality.unknown), (12, PeerQuality.unknown)])
     (ValidatorMatrix.mk [EraValidatorWeights.mk 0 [(1, 100)]])
     (EraValidatorWeights.mk 0 [(1, 100)]) (by decide) (by decide) (by decide)⟩

/-- Claim C6: a forward Builder in `HaveBlock` whose block body contains at
least one deploy next emits approvals-hashes fetch requests for the block
hash; for a block without deploys (and the strict threshold not yet met, so
there is something to fetch toward it), the approvals-hashes and deploy
phases are skipped and the next effects are finality-signature fetch
requests. -/
theorem claim_c6_have_block_dispatch (pl : PeerList) (now : Nat)
    (hq : pl.qualified_peers ≠ []) :
    (∀ (blk : Block) (sigs : List Nat) (ev : Option EraValidatorWeights),
        blk.deploy_hashes ≠ [] →
        ((((BlockBuilder.mk blk.header.block_hash false
              (BlockAcquisitionState.haveBlock blk) pl sigs ev none).need_next now).2 ≠ []) ∧
          ∀ e ∈ ((BlockBuilder.mk blk.header.block_hash false
              (BlockAcquisitionState.haveBlock blk) pl sigs ev none).need_next now).2,
            ∃ p, p ∈ pl.qualified_peers ∧
              e = Effect.fetchApprovalsHashes blk.header.block_hash p)) ∧
    (∀ (blk : Block) (sigs : List Nat) (ev : EraValidatorWeights),
        blk.deploy_hashes = [] →
        ev.has_strict_finality sigs = false →
        (ev.weights.map Prod.fst).filter (fun pk => !(sigs.contains pk)) ≠ [] →
        ((((BlockBuilder.mk blk.header.block_hash false
              (BlockAcquisitionState.haveBlock blk) pl sigs (some ev) none).need_next
            now).2 ≠ []) ∧
          ∀ e ∈ ((BlockBuilder.mk blk.header.block_hash false
              (BlockAcquisitionState.haveBlock blk) pl sigs (some ev) none).need_next
            now).2,
            ∃ pk p, e = Effect.fetchFinalitySignature blk.header.block_hash
              blk.header.era_id pk p)) := by
  have hsampled : pl.sample MAX_SIMULTANEOUS_PEERS ≠ [] :=
    sample_ne_nil_of_qualified pl MAX_SIMULTANEOUS_PEERS
      (by simp [MAX_SIMULTANEOUS_PEERS]) hq
  have hsemp : (pl.sample MAX_SIMULTANEOUS_PEERS).isEmpty = false := by
    rw [Bool.eq_false_iff]
    intro hT
    exact hsampled (List.isEmpty_iff.mp hT)
  constructor
  · intro blk sigs ev hd
    have hde : blk.deploy_hashes.isEmpty = false := by
      rw [Bool.eq_false_iff]
      intro hT
      exact hd (List.isEmpty_iff.mp hT)
    have hr : ((BlockBuilder.mk blk.header.block_hash false
        (BlockAcquisitionState.haveBlock blk) pl sigs ev none).need_next now).2
        = (pl.sample MAX_SIMULTANEOUS_PEERS).map
            (fun p => Effect.fetchApprovalsHashes blk.header.block_hash p) := by
      unfold BlockBuilder.need_next
      simp only [BlockBuilder.latched, Bool.false_eq_true, if_false, hde, hsemp]
    rw [hr]
    constructor
    · intro hnil
      rw [List.map_eq_nil_iff] at hnil
      exact hsampled hnil
    · intro e he
      obtain ⟨p, hp, rfl⟩ := List.mem_map.mp he
      exact ⟨p, sample_mem_qualified pl MAX_SIMULTANEOUS_PEERS hq p hp, rfl⟩
  · intro blk sigs ev hd hstrict hmiss
    have hde : blk.deploy_hashes.isEmpty = true := by
      rw [hd]
      rfl
    have hr : ((BlockBuilder.mk blk.header.block_hash false
        (BlockAcquisitionState.haveBlock blk) pl sigs (some ev) none).need_next now).2
        = (BlockBuilder.mk blk.header.block_hash false
            (BlockAcquisitionState.haveBlock blk) pl sigs (some ev)
            none).signature_fetch_effects ev blk.header.era_id
            (pl.sample MAX_SIMULTANEOUS_PEERS) := by
      unfold BlockBuilder.need_next
      simp only [BlockBuilder.latched, Bool.false_eq_true, if_false, if_true, hde, hstrict,
        hsemp]
    rw [hr]
    refine ⟨signature_fetch_effects_ne_nil _ ev blk.header.era_id _ hmiss hsampled, ?_⟩
    intro e he
    obtain ⟨pk, p, _, _, rfl⟩ := signature_fetch_effects_shape _ ev blk.header.era_id _ e he
    exact ⟨pk, p, rfl⟩

/-- Witness for C6 at concrete inputs: a one-deploy block and an empty block
over a three-validator era with one signature registered. -/
theorem claim_c6_witness :
    ((PeerList.mk [(11, PeerQuality.unknown), (12, PeerQuality.unknown)]).qualified_peers
        ≠ []) ∧
    ((((Block.mk (BlockHeader.mk 8 0 55 6) [41]).deploy_hashes ≠ []) →
        ((((BlockBuilder.mk 8 false
            (BlockAcquisitionState.haveBlock (Block.mk (BlockHeader.mk 8 0 55 6) [41]))
            (PeerList.mk [(11, PeerQuality.unknown), (12, PeerQuality.unknown)]) [1]
            (some (EraValidatorWeights.mk 0 [(1, 100), (2, 100), (3, 100)]))
            none).need_next 0).2 ≠ []))) ∧
      ((((BlockBuilder.mk 7 false
          (BlockAcquisitionState.haveBlock (Block.mk (BlockHeader.mk 7 0 99 5) []))
          (PeerList.mk [(11, PeerQuality.unknown), (12, PeerQuality.unknown)]) [1]
          (some (EraValidatorWeights.mk 0 [(1, 100), (2, 100), (3, 100)]))
          none).need_next 0).2 ≠ []))) := by
  have hq : (PeerList.mk
      [(11, PeerQuality.unknown), (12, PeerQuality.unknown)]).qualified_peers ≠ [] := by
    decide
  have hmain := claim_c6_have_block_dispatch
    (PeerList.mk [(11, PeerQuality.unknown), (12, PeerQuality.unknown)]) 0 hq
  refine ⟨hq, fun _ => ?_, ?_⟩
  · exact (hmain.1 (Block.mk (BlockHeader.mk 8 0 55 6) [41]) [1]
      (some (EraValidatorWeights.mk 0 [(1, 100), (2, 100), (3, 100)])) (by decide)).1
  · exact (hmain.2 (Block.mk (BlockHeader.mk 7 0 99 5) []) [1]
      (EraValidatorWeights.mk 0 [(1, 100), (2, 100), (3, 100)]) (by decide) (by decide)
      (by decide)).1

/-- Claim C1: behavior the specification mandates for a latched Builder that
receives fetch responses.  The Builder below has emitted header fetches and
is latched; handling an `Absent` header-fetch response demotes the peer,
clears the latch, and re-emits header fetches at once (at least one new
effect), without waiting for the latch TTL to expire.  The repository's own
regression tests for this property
(`fwd_sync_is_not_blocked_by_failed_header_fetch_within_latch_interval` and
`fwd_sync_is_not_blocked_by_failed_signatures_fetch_within_latch_interval`
in `tests.rs`) are disabled with an ignore marker recording that the shipped
synchronizer still stalls in this situation; the theorem is about the
spec-modelled handler, not about the shipped code. -/
theorem claim_c1_response_clears_latch (m : ValidatorMatrix) (oh : Option BlockBuilder)
    (h peer t now : Nat) (pl : PeerList)
    (hq : (pl.demote peer).qualified_peers ≠ []) :
    ((BlockBuilder.mk h false BlockAcquisitionState.haveBlockHash pl [] none
        (some t)).latched t = true) ∧
    (((BlockSynchronizer.mk m (some (BlockBuilder.mk h false
          BlockAcquisitionState.haveBlockHash pl [] none (some t))) oh
        ).block_header_fetched_absent h peer now).2 ≠ []) ∧
    (∀ e ∈ ((BlockSynchronizer.mk m (some (BlockBuilder.mk h false
          BlockAcquisitionState.haveBlockHash pl [] none (some t))) oh
        ).block_header_fetched_absent h peer now).2,
      ∃ p, e = Effect.fetchBlockHeader h p) := by
  have hsampled : (pl.demote peer).sample MAX_SIMULTANEOUS_PEERS ≠ [] :=
    sample_ne_nil_of_qualified (pl.demote peer) MAX_SIMULTANEOUS_PEERS
      (by simp [MAX_SIMULTANEOUS_PEERS]) hq
  have hsemp : ((pl.demote peer).sample MAX_SIMULTANEOUS_PEERS).isEmpty = false := by
    rw [Bool.eq_false_iff]
    intro hT
    exact hsampled (List.isEmpty_iff.mp hT)
  have hr : (((BlockSynchronizer.mk m (some (BlockBuilder.mk h false
        BlockAcquisitionState.haveBlockHash pl [] none (some t))) oh
      ).block_header_fetched_absent h peer now).2)
      = ((pl.demote peer).sample MAX_SIMULTANEOUS_PEERS).map
          (fun p => Effect.fetchBlockHeader h p) := by
    unfold BlockSynchronizer.block_header_fetched_absent BlockBuilder.register_fetch_failure
      BlockBuilder.need_next
    simp only [beq_self_eq_true, if_true, BlockBuilder.latched, Bool.false_eq_true,
      if_false, hsemp]
  refine ⟨by simp [BlockBuilder.latched, LATCH_TTL], ?_, ?_⟩
  · rw [hr]
    intro hnil
    rw [List.map_eq_nil_iff] at hnil
    exact hsampled hnil
  · rw [hr]
    intro e he
    obtain ⟨p, _, rfl⟩ := List.mem_map.mp he
    exact ⟨p, rfl⟩

/-- Witness for C1 at a concrete input: two registered peers, the responder
being peer 11, so peer 12 remains qualified. -/
theorem claim_c1_witness :
    (((PeerList.mk [(11, PeerQuality.unknown), (12, PeerQuality.unknown)]).demote
        11).qualified_peers ≠ []) ∧
    (((BlockBuilder.mk 7 false BlockAcquisitionState.haveBlockHash
        (PeerList.mk [(11, PeerQuality.unknown), (12, PeerQuality.unknown)]) [] none
        (some 0)).latched 0 = true) ∧
    (((BlockSynchronizer.mk (ValidatorMatrix.mk [])
          (some (BlockBuilder.mk 7 false BlockAcquisitionState.haveBlockHash
            (PeerList.mk [(11, PeerQuality.unknown), (12, PeerQuality.unknown)]) [] none
            (some 0))) none).block_header_fetched_absent 7 11 0).2 ≠ []) ∧
    (∀ e ∈ ((BlockSynchronizer.mk (ValidatorMatrix.mk [])
          (some (BlockBuilder.mk 7 false BlockAcquisitionState.haveBlockHash
            (PeerList.mk [(11, PeerQuality.unknown), (12, PeerQuality.unknown)]) [] none
            (some 0))) none).block_header_fetched_absent 7 11 0).2,
      ∃ p, e = Effect.fetchBlockHeader 7 p)) :=
  ⟨by decide,
   claim_c1_response_clears_latch (ValidatorMatrix.mk []) none 7 11 0 0
     (PeerList.mk [(11, PeerQuality.unknown), (12, PeerQuality.unknown)]) (by decide)⟩

/-! Helper lemmas for the finality-weight arithmetic. -/

theorem total_equal (era n w : Nat) : (equal_validator_weights era n w).total = n * w := by
  unfold equal_validator_weights EraValidatorWeights.total
  rw [List.map_map]
  show ((List.range n).map (fun _ => w)).sum = n * w
  rw [List.map_const', List.length_range]
  exact List.sum_const_nat n w

theorem weight_of_equal (era n w pk : Nat) (hpk : pk < n) :
    (equal_validator_weights era n w).weight_of pk = w := by
  unfold equal_validator_weights EraValidatorWeights.weight_of
  rw [List.filter_map]
  have hf : (List.range n).filter
      ((fun e => decide (e.1 = pk)) ∘ (fun j => (j, w))) = [pk] := by
    have heq : (List.range n).filter ((fun e => decide (e.1 = pk)) ∘ (fun j => (j, w)))
        = (List.range n).filter (fun j => j == pk) := rfl
    rw [heq, List.filter_beq,
      List.count_eq_one_of_mem (List.nodup_range n) (List.mem_range.mpr hpk)]
    rfl
  rw [hf]
  rfl

theorem signed_weight_equal (era n w k : Nat) (hk : k ≤ n) :
    (equal_validator_weights era n w).signed_weight (List.range k) = k * w := by
  unfold EraValidatorWeights.signed_weight
  have hmap : (List.range k).map (equal_validator_weights era n w).weight_of
      = (List.range k).map (fun _ => w) := by
    refine List.map_eq_map_iff.mpr ?_
    intro pk hpk
    exact weight_of_equal era n w pk (lt_of_lt_of_le (List.mem_range.mp hpk) hk)
  rw [hmap]
  show ((List.range k).map (fun _ => w)).sum = k * w
  rw [List.map_const', List.length_range]
  exact List.sum_const_nat k w

/-- Claim C7: for an era of `n` validators of equal weight `w`, weak finality
is reported exactly when the number `k` of registered distinct signatures
reaches the test suite's `weak_finality_threshold n`, which equals `⌈n/3⌉`;
equivalently, exactly when the accumulated weight `k·w` is at least
`⌈n·w/3⌉`; and the era total is `n·w`. -/
theorem claim_c7_weak_finality_threshold (era n w k : Nat) (hw : 0 < w) (hk : k ≤ n) :
    ((equal_validator_weights era n w).has_weak_finality (List.range k) = true
        ↔ weak_finality_threshold n ≤ k) ∧
    (weak_finality_threshold n = (n + 2) / 3) ∧
    ((equal_validator_weights era n w).has_weak_finality (List.range k) = true
        ↔ (n * w + 2) / 3 ≤ k * w) ∧
    ((equal_validator_weights era n w).total = n * w) := by
  have htot := total_equal era n w
  have hsig := signed_weight_equal era n w k hk
  have hweak : (equal_validator_weights era n w).has_weak_finality (List.range k) = true
      ↔ n * w ≤ 3 * (k * w) := by
    unfold EraValidatorWeights.has_weak_finality
    rw [htot, hsig]
    exact decide_eq_true_iff
  have h3 : n * w ≤ 3 * (k * w) ↔ n ≤ 3 * k := by
    rw [Nat.mul_comm n w, Nat.mul_comm 3 (k * w), Nat.mul_comm k w, Nat.mul_assoc w k 3,
      Nat.mul_comm k 3]
    exact (mul_le_mul_iff_of_pos_left hw)
  have hthr : weak_finality_threshold n ≤ k ↔ n ≤ 3 * k := by
    unfold weak_finality_threshold
    simp only [beq_iff_eq]
    split_ifs with h0 <;> omega
  have hceil : weak_finality_threshold n = (n + 2) / 3 := by
    unfold weak_finality_threshold
    simp only [beq_iff_eq]
    split_ifs with h0 <;> omega
  have hdiv : n * w ≤ 3 * (k * w) ↔ (n * w + 2) / 3 ≤ k * w := by
    generalize n * w = a
    generalize k * w = b
    omega
  exact ⟨hweak.trans (h3.trans hthr.symm), hceil, hweak.trans hdiv, htot⟩

/-- Witness for C7 at the spec's example: 7 validators of weight 100 each,
total 700, weak threshold `⌈700/3⌉ = 234`; weak finality is reached on the
3rd signature and not on the 2nd. -/
theorem claim_c7_witness :
    ((0 : Nat) < 100 ∧ (3 : Nat) ≤ 7) ∧
    (((equal_validator_weights 0 7 100).has_weak_finality (List.range 3) = true
        ↔ weak_finality_threshold 7 ≤ 3) ∧
      (weak_finality_threshold 7 = (7 + 2) / 3) ∧
      ((equal_validator_weights 0 7 100).has_weak_finality (List.range 3) = true
        ↔ (7 * 100 + 2) / 3 ≤ 3 * 100) ∧
      ((equal_validator_weights 0 7 100).total = 7 * 100)) ∧
    ((equal_validator_weights 0 7 100).has_weak_finality (List.range 3) = true) ∧
    ((equal_validator_weights 0 7 100).has_weak_finality (List.range 2) = false) ∧
    ((7 * 100 + 2) / 3 = 234) ∧
    (weak_finality_threshold 7 = 3) :=
  ⟨by decide,
   claim_c7_weak_finality_threshold 0 7 100 3 (by decide) (by decide),
   by decide, by decide, by decide, by decide⟩

/-- Claim C4: a historical Builder in `HaveStrictFinalitySignatures`: when
global-state sync fails with a trie-accumulator (root-not-found) error
listing peers, those peers are demoted and, once the latch has expired,
`need_next` emits another `SyncGlobalState` request; when it succeeds with a
list of unreliable peers, each of those peers is marked unreliable in the
Builder's peer list and the state machine advances past
`HaveStrictFinalitySignatures` — the next `need_next` effect is an
execution-results fetch, not a `SyncGlobalState` request. -/
theorem claim_c4_global_state_sync (m : ValidatorMatrix) (blk : Block) (pl : PeerList)
    (sigs : List Nat) (ev : Option EraValidatorWeights) (t now1 now2 root : Nat)
    (bad unreliable : List Nat)
    (hexp : t + LATCH_TTL ≤ now1)
    (hq : (pl.demote_all unreliable).qualified_peers ≠ []) :
    (∀ p ∈ bad, pl.contains_peer p = true →
      ((BlockSynchronizer.mk m none (some (BlockBuilder.mk blk.header.block_hash true
          (BlockAcquisitionState.haveStrictFinalitySignatures blk) pl sigs ev
          (some t)))).global_state_synced blk.header.block_hash
            (Except.error bad)).historical.map
          (fun c => c.peer_list.is_peer_unreliable p) = some true) ∧
    ((((BlockSynchronizer.mk m none (some (BlockBuilder.mk blk.header.block_hash true
          (BlockAcquisitionState.haveStrictFinalitySignatures blk) pl sigs ev
          (some t)))).global_state_synced blk.header.block_hash
            (Except.error bad)).need_next now1).2
        = [Effect.syncGlobalState blk.header.block_hash blk.header.state_root]) ∧
    (((BlockSynchronizer.mk m none (some (BlockBuilder.mk blk.header.block_hash true
          (BlockAcquisitionState.haveStrictFinalitySignatures blk) pl sigs ev
          (some t)))).global_state_synced blk.header.block_hash
            (Except.ok (root, unreliable))).historical.map
          (fun c => c.acquisition_state)
        = some (BlockAcquisitionState.haveGlobalState blk)) ∧
    (∀ p ∈ unreliable, pl.contains_peer p = true →
      ((BlockSynchronizer.mk m none (some (BlockBuilder.mk blk.header.block_hash true
          (BlockAcquisitionState.haveStrictFinalitySignatures blk) pl sigs ev
          (some t)))).global_state_synced blk.header.block_hash
            (Except.ok (root, unreliable))).historical.map
          (fun c => c.peer_list.is_peer_unreliable p) = some true) ∧
    (∃ p, (((BlockSynchronizer.mk m none (some (BlockBuilder.mk blk.header.block_hash true
          (BlockAcquisitionState.haveStrictFinalitySignatures blk) pl sigs ev
          (some t)))).global_state_synced blk.header.block_hash
            (Except.ok (root, unreliable))).need_next now2).2
        = [Effect.fetchExecutionResults blk.header.block_hash p]) ∧
    (∀ e ∈ (((BlockSynchronizer.mk m none (some (BlockBuilder.mk blk.header.block_hash true
          (BlockAcquisitionState.haveStrictFinalitySignatures blk) pl sigs ev
          (some t)))).global_state_synced blk.header.block_hash
            (Except.ok (root, unreliable))).need_next now2).2,
      ∀ a b', e ≠ Effect.syncGlobalState a b') := by
  have herr : (BlockSynchronizer.mk m none (some (BlockBuilder.mk blk.header.block_hash true
      (BlockAcquisitionState.haveStrictFinalitySignatures blk) pl sigs ev
      (some t)))).global_state_synced blk.header.block_hash (Except.error bad)
      = BlockSynchronizer.mk m none (some (BlockBuilder.mk blk.header.block_hash true
          (BlockAcquisitionState.haveStrictFinalitySignatures blk) (pl.demote_all bad)
          sigs ev (some t))) := by
    unfold BlockSynchronizer.global_state_synced
    simp
  have hok : (BlockSynchronizer.mk m none (some (BlockBuilder.mk blk.header.block_hash true
      (BlockAcquisitionState.haveStrictFinalitySignatures blk) pl sigs ev
      (some t)))).global_state_synced blk.header.block_hash (Except.ok (root, unreliable))
      = BlockSynchronizer.mk m none (some (BlockBuilder.mk blk.header.block_hash true
          (BlockAcquisitionState.haveGlobalState blk) (pl.demote_all unreliable)
          sigs ev none)) := by
    unfold BlockSynchronizer.global_state_synced
    simp
  have hlat : (BlockBuilder.mk blk.header.block_hash true
      (BlockAcquisitionState.haveStrictFinalitySignatures blk) (pl.demote_all bad)
      sigs ev (some t)).latched now1 = false := by
    unfold BlockBuilder.latched
    rw [decide_eq_false_iff_not]
    exact Nat.not_lt.mpr hexp
  have ha2 : ((BlockSynchronizer.mk m none (some (BlockBuilder.mk blk.header.block_hash true
      (BlockAcquisitionState.haveStrictFinalitySignatures blk) (pl.demote_all bad)
      sigs ev (some t)))).need_next now1).2
      = [Effect.syncGlobalState blk.header.block_hash blk.header.state_root] := by
    unfold BlockSynchronizer.need_next BlockBuilder.need_next
    simp only [hlat, Bool.false_eq_true, if_false, if_true, List.append_nil]
  obtain ⟨p0, rest, hcons⟩ := List.exists_cons_of_ne_nil
    (sample_ne_nil_of_qualified (pl.demote_all unreliable) MAX_SIMULTANEOUS_PEERS
      (by simp [MAX_SIMULTANEOUS_PEERS]) hq)
  have hb3 : ((BlockSynchronizer.mk m none (some (BlockBuilder.mk blk.header.block_hash true
      (BlockAcquisitionState.haveGlobalState blk) (pl.demote_all unreliable)
      sigs ev none))).need_next now2).2
      = [Effect.fetchExecutionResults blk.header.block_hash p0] := by
    unfold BlockSynchronizer.need_next BlockBuilder.need_next
    simp only [BlockBuilder.latched, Bool.false_eq_true, if_false, hcons, List.append_nil]
  refine ⟨?_, ?_, ?_, ?_, ⟨p0, ?_⟩, ?_⟩
  · intro p hmem hp
    rw [herr]
    show some ((pl.demote_all bad).is_peer_unreliable p) = some true
    rw [is_peer_unreliable_demote_all pl bad p hmem hp]
  · rw [herr]
    exact ha2
  · rw [hok]
    rfl
  · intro p hmem hp
    rw [hok]
    show some ((pl.demote_all unreliable).is_peer_unreliable p) = some true
    rw [is_peer_unreliable_demote_all pl unreliable p hmem hp]
  · rw [hok]
    exact hb3
  · intro e he a b'
    rw [hok, hb3] at he
    have he' := List.mem_singleton.mp he
    subst he'
    simp

/-- Witness for C4 at a concrete input: era-1 block 8 with one deploy, five
registered peers, bad peers 21 and 22, unreliable peers 23 and 24, latch set
at 0 and queried at 5 and 9. -/
theorem claim_c4_witness :
    ((0 + LATCH_TTL ≤ 5) ∧
      (((PeerList.mk [(21, PeerQuality.unknown), (22, PeerQuality.unknown),
          (23, PeerQuality.unknown), (24, PeerQuality.unknown),
          (25, PeerQuality.unknown)]).demote_all [23, 24]).qualified_peers ≠ [])) ∧
    ((∀ p ∈ ([21, 22] : List Nat),
      (PeerList.mk [(21, PeerQuality.unknown), (22, PeerQuality.unknown),
          (23, PeerQuality.unknown), (24, PeerQuality.unknown),
          (25, PeerQuality.unknown)]).contains_peer p = true →
      ((BlockSynchronizer.mk (ValidatorMatrix.mk []) none
          (some (BlockBuilder.mk 8 true
            (BlockAcquisitionState.haveStrictFinalitySignatures
              (Block.mk (BlockHeader.mk 8 1 55 6) [41]))
            (PeerList.mk [(21, PeerQuality.unknown), (22, PeerQuality.unknown),
              (23, PeerQuality.unknown), (24, PeerQuality.unknown),
              (25, PeerQuality.unknown)]) [1, 2, 3] none
            (some 0)))).global_state_synced 8 (Except.error [21, 22])).historical.map
          (fun c => c.peer_list.is_peer_unreliable p) = some true) ∧
    ((((BlockSynchronizer.mk (ValidatorMatrix.mk []) none
          (some (BlockBuilder.mk 8 true
            (BlockAcquisitionState.haveStrictFinalitySignatures
              (Block.mk (BlockHeader.mk 8 1 55 6) [41]))
            (PeerList.mk [(21, PeerQuality.unknown), (22, PeerQuality.unknown),
              (23, PeerQuality.unknown), (24, PeerQuality.unknown),
              (25, PeerQuality.unknown)]) [1, 2, 3] none
            (some 0)))).global_state_synced 8 (Except.error [21, 22])).need_next 5).2
        = [Effect.syncGlobalState 8 55]) ∧
    (((BlockSynchronizer.mk (ValidatorMatrix.mk []) none
          (some (BlockBuilder.mk 8 true
            (BlockAcquisitionState.haveStrictFinalitySignatures
              (Block.mk (BlockHeader.mk 8 1 55 6) [41]))
            (PeerList.mk [(21, PeerQuality.unknown), (22, PeerQuality.unknown),
              (23, PeerQuality.unknown), (24, PeerQuality.unknown),
              (25, PeerQuality.unknown)]) [1, 2, 3] none
            (some 0)))).global_state_synced 8
              (Except.ok (55, [23, 24]))).historical.map
          (fun c => c.acquisition_state)
        = some (BlockAcquisitionState.haveGlobalState
            (Block.mk (BlockHeader.mk 8 1 55 6) [41]))) ∧
    (∀ p ∈ ([23, 24] : List Nat),
      (PeerList.mk [(21, PeerQuality.unknown), (22, PeerQuality.unknown),
          (23, PeerQuality.unknown), (24, PeerQuality.unknown),
          (25, PeerQuality.unknown)]).contains_peer p = true →
      ((BlockSynchronizer.mk (ValidatorMatrix.mk []) none
          (some (BlockBuilder.mk 8 true
            (BlockAcquisitionState.haveStrictFinalitySignatures
              (Block.mk (BlockHeader.mk 8 1 55 6) [41]))
            (PeerList.mk [(21, PeerQuality.unknown), (22, PeerQuality.unknown),
              (23, PeerQuality.unknown), (24, PeerQuality.unknown),
              (25, PeerQuality.unknown)]) [1, 2, 3] none
            (some 0)))).global_state_synced 8
              (Except.ok (55, [23, 24]))).historical.map
          (fun c => c.peer_list.is_peer_unreliable p) = some true) ∧
    (∃ p, (((BlockSynchronizer.mk (ValidatorMatrix.mk []) none
          (some (BlockBuilder.mk 8 true
            (BlockAcquisitionState.haveStrictFinalitySignatures
              (Block.mk (BlockHeader.mk 8 1 55 6) [41]))
            (PeerList.mk [(21, PeerQuality.unknown), (22, PeerQuality.unknown),
              (23, PeerQuality.unknown), (24, PeerQuality.unknown),
              (25, PeerQuality.unknown)]) [1, 2, 3] none
            (some 0)))).global_state_synced 8
              (Except.ok (55, [23, 24]))).need_next 9).2
        = [Effect.fetchExecutionResults 8 p]) ∧
    (∀ e ∈ (((BlockSynchronizer.mk (ValidatorMatrix.mk []) none
          (some (BlockBuilder.mk 8 true
            (BlockAcquisitionState.haveStrictFinalitySignatures
              (Block.mk (BlockHeader.mk 8 1 55 6) [41]))
            (PeerList.mk [(21, PeerQuality.unknown), (22, PeerQuality.unknown),
              (23, PeerQuality.unknown), (24, PeerQuality.unknown),
              (25, PeerQuality.unknown)]) [1, 2, 3] none
            (some 0)))).global_state_synced 8
              (Except.ok (55, [23, 24]))).need_next 9).2,
      ∀ a b', e ≠ Effect.syncGlobalState a b')) :=
  ⟨⟨by decide, by decide⟩,
   claim_c4_global_state_sync (ValidatorMatrix.mk [])
     (Block.mk (BlockHeader.mk 8 1 55 6) [41])
     (PeerList.mk [(21, PeerQuality.unknown), (22, PeerQuality.unknown),
       (23, PeerQuality.unknown), (24, PeerQuality.unknown), (25, PeerQuality.unknown)])
     [1, 2, 3] none 0 5 9 55 [21, 22] [23, 24] (by decide) (by decide)⟩

end CasperSync
